import Mathlib

/-!
# Verification of the ShopPilot customer/order backend

A shallow embedding of the customer controller (summary statistics, CRUD
handlers), the customer schema, and the order schema's tracking-id
generation, together with theorems checking the behavioural claims made
about them.

Conventions of the embedding:
* JavaScript numbers that hold integer counts are modelled as `ℕ`/`ℤ`;
  fractional arithmetic (`(current - previous) / previous * 100`) is
  modelled exactly in `ℚ`.
* JavaScript `Date` values are time values: integer milliseconds since the
  Unix epoch (`ℤ`), in a DST-free clock.  Calendar decomposition and
  recomposition (`getDate`/`setDate`/`setMonth`/`setFullYear`) follow the
  ECMAScript specification's mathematical (floor-division) definitions,
  realised through a proleptic-Gregorian civil-calendar conversion.
* The Mongo collection is a list of documents; `countDocuments(filter)` is
  the length of the filtered list; `findOne`/`findById` are list searches;
  `create` appends; saving a found document writes it back by id.
* Fallible handlers return an explicit result value carrying the HTTP
  status code and message alongside the new collection state.
-/

/-! ## Civil calendar (model of ECMAScript date decomposition)

Days are counted from 1970-01-01 (day 0).  `civilFromDays` decomposes a day
number into (year, month (1-based), day-of-month) by peeling off 400-year
eras, centuries, 4-year quadrennia and years, in the March-based year
convention (each level is a floor division with a small corrective term).
`daysFromCivil` is the standard recomposition formula.
-/

def dayMs : ℤ := 1000 * 60 * 60 * 24

/-- March-based year of era (0..399) of a day of era (0..146096): peel off
the century, the quadrennium within the century and the year within the
quadrennium, each a floor division with a small corrective term. -/
def yoeOfDoe (doe : ℤ) : ℤ :=
  let c := doe / 36524 - doe / 146096        -- century of era, 0..3
  let cae := doe - 36524 * c                 -- day of century, 0..36524
  let i := cae / 1461                        -- quadrennium of century, 0..24
  let qae := cae - 1461 * i                  -- day of quadrennium, 0..1460
  let j := qae / 365 - qae / 1460            -- year of quadrennium, 0..3
  100 * c + 4 * i + j

/-- Day within the March-based year (0..365) of a day of era. -/
def doyOfDoe (doe : ℤ) : ℤ :=
  let c := doe / 36524 - doe / 146096
  let cae := doe - 36524 * c
  let i := cae / 1461
  let qae := cae - 1461 * i
  let j := qae / 365 - qae / 1460
  qae - 365 * j

/-- First day of era of a March-based year of era. -/
def yearStartOfYoe (yoe : ℤ) : ℤ := 365 * yoe + yoe / 4 - yoe / 100

theorem yoe_doy_spec (doe : ℤ) (h0 : 0 ≤ doe) (h1 : doe ≤ 146096) :
    yearStartOfYoe (yoeOfDoe doe) + doyOfDoe doe = doe ∧
    0 ≤ yoeOfDoe doe ∧ yoeOfDoe doe ≤ 399 ∧
    0 ≤ doyOfDoe doe ∧ doyOfDoe doe ≤ 365 := by
  unfold yearStartOfYoe yoeOfDoe doyOfDoe
  dsimp only
  set cc := doe / 36524 - doe / 146096 with hcc
  set cae := doe - 36524 * cc with hcae
  set i := cae / 1461 with hi
  set qae := cae - 1461 * i with hqae
  set jj := qae / 365 - qae / 1460 with hjj
  have hccb : 0 ≤ cc ∧ cc ≤ 3 := by omega
  have hcaeb : 0 ≤ cae ∧ cae ≤ 36524 := by omega
  have hib : 0 ≤ i ∧ i ≤ 24 := by omega
  have hqaeb : 0 ≤ qae ∧ qae ≤ 1460 := by omega
  have hjjb : 0 ≤ jj ∧ jj ≤ 3 := by omega
  have h4 : (100 * cc + 4 * i + jj) / 4 = 25 * cc + i := by omega
  have h100 : (100 * cc + 4 * i + jj) / 100 = cc := by omega
  omega

/-- Decompose a day number (days since 1970-01-01) into
(year, month 1-based, day-of-month 1-based), proleptic Gregorian. -/
def civilFromDays (z0 : ℤ) : ℤ × ℤ × ℤ :=
  let z := z0 + 719468          -- shift epoch to 0000-03-01 (start of a 400-year era)
  let era := z / 146097
  let doe := z % 146097         -- day of era, 0..146096
  let yoe := yoeOfDoe doe       -- year of era, 0..399
  let doy := doyOfDoe doe       -- day of (March-based) year, 0..365
  let mp := (5 * doy + 2) / 153 -- March-based month, 0..11
  let d := doy - (153 * mp + 2) / 5 + 1
  let m := mp + (if mp < 10 then 3 else -9)  -- civil month, 1..12
  (yoe + era * 400 + (if m ≤ 2 then 1 else 0), m, d)

/-- Recompose (year, month 1-based, day-of-month) into the day number since
1970-01-01, proleptic Gregorian. -/
def daysFromCivil (y0 m d : ℤ) : ℤ :=
  let y := y0 - (if m ≤ 2 then 1 else 0)
  let era := y / 400
  let yoe := y - era * 400
  let doy := (153 * (m + (if 2 < m then -3 else 9)) + 2) / 5 + d - 1
  era * 146097 + yearStartOfYoe yoe + doy - 719468

theorem daysFromCivil_civilFromDays (z : ℤ) :
    daysFromCivil (civilFromDays z).1 (civilFromDays z).2.1 (civilFromDays z).2.2 = z := by
  have hspec := yoe_doy_spec ((z + 719468) % 146097) (by omega) (by omega)
  unfold daysFromCivil civilFromDays
  dsimp only
  set doe := (z + 719468) % 146097 with hdoe
  set era := (z + 719468) / 146097 with hera
  set yoe := yoeOfDoe doe with hyoe
  set doy := doyOfDoe doe with hdoy
  set mp := (5 * doy + 2) / 153 with hmp
  have hmpb : 0 ≤ mp ∧ mp ≤ 11 := by omega
  split_ifs <;>
    first
    | omega
    | (have harg : mp + 3 + -3 = mp := by ring
       rw [harg]
       have hy : yoe + era * 400 + 0 - 0 - (yoe + era * 400 + 0 - 0) / 400 * 400 = yoe := by
         omega
       rw [hy]
       omega)
    | (have harg : mp + -9 + 9 = mp := by ring
       rw [harg]
       have hy : yoe + era * 400 + 1 - 1 - (yoe + era * 400 + 1 - 1) / 400 * 400 = yoe := by
         omega
       rw [hy]
       omega)

theorem civilFromDays_month_range (z : ℤ) :
    1 ≤ (civilFromDays z).2.1 ∧ (civilFromDays z).2.1 ≤ 12 := by
  have hspec := yoe_doy_spec ((z + 719468) % 146097) (by omega) (by omega)
  unfold civilFromDays
  dsimp only
  set doe := (z + 719468) % 146097 with hdoe
  set doy := doyOfDoe doe with hdoy
  split_ifs <;> omega

theorem civilFromDays_day_range (z : ℤ) :
    1 ≤ (civilFromDays z).2.2 ∧ (civilFromDays z).2.2 ≤ 31 := by
  have hspec := yoe_doy_spec ((z + 719468) % 146097) (by omega) (by omega)
  unfold civilFromDays
  dsimp only
  set doe := (z + 719468) % 146097 with hdoe
  set doy := doyOfDoe doe with hdoy
  set mp := (5 * doy + 2) / 153 with hmp
  have hmpb : 0 ≤ mp ∧ mp ≤ 11 := by omega
  omega

/-- The map `daysFromCivil` is linear in the day-of-month argument. -/
theorem daysFromCivil_day_shift (y m d : ℤ) :
    daysFromCivil y m d = daysFromCivil y m 1 + d - 1 := by
  unfold daysFromCivil
  dsimp only
  split_ifs <;> omega

-- sample dates pinning the calendar down
example : daysFromCivil 1970 1 1 = 0 := by decide
example : civilFromDays 0 = (1970, 1, 1) := by decide
example : civilFromDays 19675 = (2023, 11, 14) := by decide
example : civilFromDays (-1) = (1969, 12, 31) := by decide
example : civilFromDays 11016 = (2000, 2, 29) := by decide
example : civilFromDays 47540 = (2100, 2, 28) := by decide
example : civilFromDays 47541 = (2100, 3, 1) := by decide
example : daysFromCivil 2024 2 29 = 19782 := by decide
example : civilFromDays 19782 = (2024, 2, 29) := by decide

/-! ## JS `Date` getters and setters (time values in ms, DST-free clock) -/

/-- ECMAScript `Day(t)`: the day number containing time value `t`. -/
def jsDay (t : ℤ) : ℤ := t / dayMs

/-- Time within the day, in ms. -/
def jsTimeWithinDay (t : ℤ) : ℤ := t % dayMs

/-- JS `getFullYear()` of a time value. -/
def jsGetFullYear (t : ℤ) : ℤ := (civilFromDays (jsDay t)).1

/-- JS `getMonth()` of a time value (0-based month, as in JS). -/
def jsGetMonth (t : ℤ) : ℤ := (civilFromDays (jsDay t)).2.1 - 1

/-- JS `getDate()` of a time value (1-based day of month). -/
def jsGetDate (t : ℤ) : ℤ := (civilFromDays (jsDay t)).2.2

/-- ECMAScript `MakeDay(year, month, date)` with a possibly out-of-range
0-based `month` (overflow rolls the year) and out-of-range `date`
(overflow rolls the month), as a day number. -/
def jsMakeDay (y mon date : ℤ) : ℤ :=
  daysFromCivil (y + mon / 12) (mon % 12 + 1) 1 + date - 1

/-- JS `d.setDate(n)`: replace the day-of-month, letting out-of-range values
roll over. -/
def jsSetDate (t n : ℤ) : ℤ :=
  jsMakeDay (jsGetFullYear t) (jsGetMonth t) n * dayMs + jsTimeWithinDay t

/-- JS `d.setMonth(mon)`: replace the (0-based) month, letting out-of-range
values roll the year, keeping the day-of-month count. -/
def jsSetMonth (t mon : ℤ) : ℤ :=
  jsMakeDay (jsGetFullYear t) mon (jsGetDate t) * dayMs + jsTimeWithinDay t

/-- JS `d.setFullYear(y)`: replace the year, keeping month and day-of-month. -/
def jsSetFullYear (t y : ℤ) : ℤ :=
  jsMakeDay y (jsGetMonth t) (jsGetDate t) * dayMs + jsTimeWithinDay t

theorem dayMs_eq : dayMs = 86400000 := by norm_num [dayMs]

/-! ## Decimal and base-36 numerals (models of JS number↔string primitives) -/

def digitChar (d : ℕ) : Char := Char.ofNat (48 + d)

/-- Little-endian decimal digits of `n` (empty for 0); the first argument is
fuel, always instantiated with `n` itself. -/
def decDigitsFuel : ℕ → ℕ → List ℕ
  | 0, _ => []
  | _ + 1, 0 => []
  | fuel + 1, n + 1 => (n + 1) % 10 :: decDigitsFuel fuel ((n + 1) / 10)

/-- Decimal numeral of a natural number, as JS renders integers. -/
def natToString (n : ℕ) : String :=
  if n = 0 then "0" else String.mk ((decDigitsFuel n n).reverse.map digitChar)

/-- Decimal numeral of an integer, as JS renders integers. -/
def intToString (n : ℤ) : String :=
  (if n < 0 then "-" else "") ++ natToString n.natAbs

/-- Numeric value of a big-endian digit list. -/
def ofDigitsBE (ds : List ℕ) : ℕ := ds.foldl (fun a d => 10 * a + d) 0

def digitVal (c : Char) : ℕ := c.toNat - 48

/-- Numeric value of a big-endian list of decimal digit characters. -/
def decCharsVal (cs : List Char) : ℕ := cs.foldl (fun a c => 10 * a + digitVal c) 0

/-- Model of ECMAScript `ToNumber` on the plain decimal numeral strings
produced by `toFixed`: optional leading minus, integer digits, then
optionally a point and fraction digits. -/
def parseDecimal (s : String) : ℚ :=
  let body : List Char → ℚ := fun cs =>
    let intPart := cs.takeWhile (fun c => !(c == '.'))
    let fracPart := (cs.dropWhile (fun c => !(c == '.'))).drop 1
    (decCharsVal intPart : ℚ) + (decCharsVal fracPart : ℚ) / (10 : ℚ) ^ fracPart.length
  if s.data.head? = some '-' then -(body s.data.tail) else body s.data

theorem decDigitsFuel_lt_ten : ∀ fuel n d, d ∈ decDigitsFuel fuel n → d < 10 := by
  intro fuel
  induction fuel with
  | zero => intro n d h; simp [decDigitsFuel] at h
  | succ f ih =>
    intro n d h
    match n with
    | 0 => simp [decDigitsFuel] at h
    | n + 1 =>
      simp only [decDigitsFuel, List.mem_cons] at h
      rcases h with h | h
      · omega
      · exact ih _ _ h

theorem ofDigitsBE_append_one (l : List ℕ) (d : ℕ) :
    ofDigitsBE (l ++ [d]) = 10 * ofDigitsBE l + d := by
  simp [ofDigitsBE, List.foldl_append]

theorem ofDigitsBE_decDigitsFuel : ∀ fuel n, n ≤ fuel →
    ofDigitsBE (decDigitsFuel fuel n).reverse = n := by
  intro fuel
  induction fuel with
  | zero => intro n h; interval_cases n; simp [decDigitsFuel, ofDigitsBE]
  | succ f ih =>
    intro n h
    match n with
    | 0 => simp [decDigitsFuel, ofDigitsBE]
    | n + 1 =>
      have hd : (n + 1) / 10 ≤ f := by omega
      simp only [decDigitsFuel, List.reverse_cons, ofDigitsBE_append_one, ih _ hd]
      omega

theorem digitVal_digitChar : ∀ d, d < 10 → digitVal (digitChar d) = d := by decide

theorem foldl_decChars_map (ds : List ℕ) :
    ∀ a, (∀ d ∈ ds, d < 10) →
      (ds.map digitChar).foldl (fun x c => 10 * x + digitVal c) a =
        ds.foldl (fun x d => 10 * x + d) a := by
  induction ds with
  | nil => intro a _; rfl
  | cons d rest ih =>
    intro a h
    simp only [List.map_cons, List.foldl_cons]
    rw [digitVal_digitChar d (h d (by simp))]
    exact ih _ (fun x hx => h x (by simp [hx]))

theorem decCharsVal_map_digitChar (ds : List ℕ) (h : ∀ d ∈ ds, d < 10) :
    decCharsVal (ds.map digitChar) = ofDigitsBE ds :=
  foldl_decChars_map ds 0 h

/-- Reading back the decimal numeral of `n` gives `n`. -/
theorem decCharsVal_natToString (n : ℕ) : decCharsVal (natToString n).data = n := by
  unfold natToString
  split
  · simp_all [decCharsVal, digitVal]
  · rw [decCharsVal_map_digitChar _ (fun d hd =>
      decDigitsFuel_lt_ten n n d (List.mem_reverse.mp hd))]
    exact ofDigitsBE_decDigitsFuel n n le_rfl

/-- Every character of the decimal numeral of `n` is a digit character. -/
theorem natToString_chars (n : ℕ) :
    ∀ c ∈ (natToString n).data, ∃ d, d < 10 ∧ c = digitChar d := by
  unfold natToString
  split
  · intro c hc
    refine ⟨0, by norm_num, ?_⟩
    simpa [digitChar] using hc
  · intro c hc
    simp only [String.data] at hc
    obtain ⟨d, hd, rfl⟩ := List.mem_map.mp hc
    exact ⟨d, decDigitsFuel_lt_ten n n d (List.mem_reverse.mp hd), rfl⟩

theorem natToString_ne_nil (n : ℕ) : (natToString n).data ≠ [] := by
  unfold natToString
  split
  · simp
  · simp only [String.data, ne_eq, List.map_eq_nil_iff, List.reverse_eq_nil_iff]
    match n, ‹¬ n = 0› with
    | n + 1, _ => simp [decDigitsFuel]

/-- Setting the day-of-month to `getDate() - k` moves a time value back by
exactly `k` 24-hour days. -/
theorem jsSetDate_sub (t k : ℤ) :
    jsSetDate t (jsGetDate t - k) = t - k * dayMs := by
  have hm := civilFromDays_month_range (jsDay t)
  have hrt := daysFromCivil_civilFromDays (jsDay t)
  have hshift := daysFromCivil_day_shift (civilFromDays (jsDay t)).1
    (civilFromDays (jsDay t)).2.1 (civilFromDays (jsDay t)).2.2
  unfold jsSetDate jsMakeDay jsGetFullYear jsGetMonth jsGetDate jsTimeWithinDay
  have h12a : ((civilFromDays (jsDay t)).2.1 - 1) / 12 = 0 := by omega
  have h12b : ((civilFromDays (jsDay t)).2.1 - 1) % 12 + 1 = (civilFromDays (jsDay t)).2.1 := by
    omega
  rw [h12a, add_zero, h12b]
  rw [hshift] at hrt
  unfold jsDay at hrt ⊢
  rw [dayMs_eq] at *
  omega

/-! ## `toFixed(2)` (ECMAScript Number.prototype.toFixed with 2 digits) -/

/-- The integer `n` such that `toFixed(2)` renders `|q|` rounded to `n/100`:
the absolute value is rounded to the nearest hundredth, ties away from zero,
and the sign is re-attached (ECMAScript extracts the sign first). -/
def jsRound2 (q : ℚ) : ℤ :=
  if q < 0 then -⌊(-q) * 100 + 1 / 2⌋ else ⌊q * 100 + 1 / 2⌋

/-- Exactly-two-digit decimal numeral of `k < 100`. -/
def twoDigitString (k : ℕ) : String :=
  if k < 10 then "0" ++ natToString k else natToString k

/-- Model of `x.toFixed(2)`: sign of `x`, integer part, point, two fraction
digits. -/
def toFixed2 (q : ℚ) : String :=
  let a := (jsRound2 q).natAbs
  (if q < 0 then "-" else "") ++ natToString (a / 100) ++ "." ++ twoDigitString (a % 100)

theorem twoDigitString_spec : ∀ k, k < 100 →
    decCharsVal (twoDigitString k).data = k ∧ (twoDigitString k).data.length = 2 ∧
    ∀ c ∈ (twoDigitString k).data, ∃ d, d < 10 ∧ c = digitChar d := by decide

theorem digitChar_ne_dot : ∀ d, d < 10 → ¬(digitChar d == '.') = true := by decide

theorem digitChar_ne_minus : ∀ d, d < 10 → ¬(digitChar d = '-') := by decide

theorem takeWhile_digits_append (l1 l2 : List Char)
    (h : ∀ c ∈ l1, ∃ d, d < 10 ∧ c = digitChar d) :
    (l1 ++ '.' :: l2).takeWhile (fun c => !(c == '.')) = l1 ∧
    (l1 ++ '.' :: l2).dropWhile (fun c => !(c == '.')) = '.' :: l2 := by
  induction l1 with
  | nil => simp [List.takeWhile, List.dropWhile]
  | cons c rest ih =>
    obtain ⟨d, hd, rfl⟩ := h c (by simp)
    have hne := digitChar_ne_dot d hd
    have ihr := ih (fun x hx => h x (by simp [hx]))
    simp only [List.cons_append, List.takeWhile_cons, List.dropWhile_cons]
    constructor
    · rw [if_pos (by simpa using hne)]
      simp [ihr.1]
    · rw [if_pos (by simpa using hne)]
      exact ihr.2

/-- Value of the unsigned decimal body `intPart ++ "." ++ two digits`. -/
theorem parseBody_val (ip : ℕ) (fr : ℕ) (hfr : fr < 100) :
    ((decCharsVal (((natToString ip).data ++ '.' :: (twoDigitString fr).data).takeWhile
        (fun c => !(c == '.'))) : ℚ) +
      (decCharsVal ((((natToString ip).data ++ '.' :: (twoDigitString fr).data).dropWhile
        (fun c => !(c == '.'))).drop 1) : ℚ) /
        (10 : ℚ) ^ ((((natToString ip).data ++ '.' :: (twoDigitString fr).data).dropWhile
        (fun c => !(c == '.'))).drop 1).length) =
    (ip : ℚ) + (fr : ℚ) / 100 := by
  obtain ⟨htw, hdw⟩ := takeWhile_digits_append (natToString ip).data
    (twoDigitString fr).data (natToString_chars ip)
  rw [htw, hdw]
  obtain ⟨hv, hl, _⟩ := twoDigitString_spec fr hfr
  simp only [List.drop_one, List.tail_cons, hv, hl, decCharsVal_natToString]
  norm_num

theorem head_natToString_append_ne_minus (n : ℕ) (l : List Char) :
    ¬(((natToString n).data ++ l).head? = some '-') := by
  have hne := natToString_ne_nil n
  rcases hl : (natToString n).data with _ | ⟨c, rest⟩
  · exact absurd hl hne
  · simp only [List.cons_append, List.head?_cons, Option.some.injEq]
    intro hc
    obtain ⟨d, hd, hcd⟩ := natToString_chars n c (by rw [hl]; simp)
    exact digitChar_ne_minus d hd (by rw [← hcd, hc])

/-- Parsing the output of `toFixed(2)` recovers the rounded value over 100. -/
theorem parseDecimal_toFixed2 (q : ℚ) :
    parseDecimal (toFixed2 q) = (jsRound2 q : ℚ) / 100 := by
  have hmod : (jsRound2 q).natAbs % 100 < 100 := Nat.mod_lt _ (by norm_num)
  have hsplit : ((jsRound2 q).natAbs : ℚ) / 100 =
      ((jsRound2 q).natAbs / 100 : ℕ) + ((jsRound2 q).natAbs % 100 : ℕ) / (100 : ℚ) := by
    have hdm : ((jsRound2 q).natAbs : ℚ) =
        100 * ((jsRound2 q).natAbs / 100 : ℕ) + ((jsRound2 q).natAbs % 100 : ℕ) := by
      exact_mod_cast (Nat.div_add_mod (jsRound2 q).natAbs 100).symm
    rw [hdm]
    ring
  by_cases hq : q < 0
  · have hfl : 0 ≤ ⌊(-q) * 100 + 1 / 2⌋ := by
      apply Int.floor_nonneg.mpr
      have h : (0 : ℚ) ≤ -q := by linarith
      nlinarith
    have hle : jsRound2 q ≤ 0 := by simp only [jsRound2, if_pos hq]; omega
    have habs : (jsRound2 q : ℚ) = -((jsRound2 q).natAbs : ℚ) := by
      rw [Int.cast_natAbs, abs_of_nonpos hle]
      push_cast
      ring
    unfold parseDecimal toFixed2
    simp only [if_pos hq]
    rw [show (("-" ++ natToString ((jsRound2 q).natAbs / 100) ++ "." ++
        twoDigitString ((jsRound2 q).natAbs % 100)).data) =
        '-' :: ((natToString ((jsRound2 q).natAbs / 100)).data ++
          '.' :: (twoDigitString ((jsRound2 q).natAbs % 100)).data) by
      simp only [String.data_append, List.append_assoc]
      rfl]
    simp only [List.head?_cons, List.tail_cons, eq_self_iff_true, if_true]
    rw [parseBody_val _ _ hmod, habs, neg_div, hsplit]
  · have h0 : 0 ≤ jsRound2 q := by
      simp only [jsRound2, if_neg hq]
      apply Int.floor_nonneg.mpr
      have h : (0 : ℚ) ≤ q := le_of_not_lt hq
      nlinarith
    have habs : (jsRound2 q : ℚ) = ((jsRound2 q).natAbs : ℚ) := by
      rw [Int.cast_natAbs, abs_of_nonneg h0]
    unfold parseDecimal toFixed2
    simp only [if_neg hq]
    rw [show ((("" : String) ++ natToString ((jsRound2 q).natAbs / 100) ++ "." ++
        twoDigitString ((jsRound2 q).natAbs % 100)).data) =
        ((natToString ((jsRound2 q).natAbs / 100)).data ++
          '.' :: (twoDigitString ((jsRound2 q).natAbs % 100)).data) by
      simp only [String.data_append, List.append_assoc]
      rfl]
    rw [if_neg (head_natToString_append_ne_minus _ _)]
    rw [parseBody_val _ _ hmod, habs, hsplit]

/-! ## Case conversion (models of JS toLowerCase/toUpperCase, ASCII) -/

def jsToLower (s : String) : String := String.mk (s.data.map Char.toLower)

def jsToUpper (s : String) : String := String.mk (s.data.map Char.toUpper)

set_option maxRecDepth 4000 in
theorem charOfNat_toNat_valid : ∀ m, m < 256 → (Char.ofNat m).toNat = m := by decide

theorem char_toUpper_toUpper (c : Char) : c.toUpper.toUpper = c.toUpper := by
  by_cases h : c.toNat ≥ 97 ∧ c.toNat ≤ 122
  · have h1 : c.toUpper = Char.ofNat (c.toNat - 32) := by
      unfold Char.toUpper
      rw [if_pos h]
    have h2 : (Char.ofNat (c.toNat - 32)).toNat = c.toNat - 32 :=
      charOfNat_toNat_valid _ (by omega)
    rw [h1]
    unfold Char.toUpper
    rw [h2, if_neg (by omega)]
  · have h1 : c.toUpper = c := by
      unfold Char.toUpper
      rw [if_neg h]
    rw [h1, h1]

theorem jsToUpper_jsToUpper (s : String) : jsToUpper (jsToUpper s) = jsToUpper s := by
  unfold jsToUpper
  simp only [List.map_map]
  congr 1
  exact List.map_congr_left (fun c _ => char_toUpper_toUpper c)

/-! ## Base-36 numerals (model of Number.prototype.toString(36)) -/

/-- Base-36 digit characters as JS produces them: `0`-`9` then `a`-`z`. -/
def digitChar36 (d : ℕ) : Char :=
  if d < 10 then Char.ofNat (48 + d) else Char.ofNat (87 + d)

/-- Little-endian base-36 digits of `n` (empty for 0); fuel-based. -/
def base36DigitsFuel : ℕ → ℕ → List ℕ
  | 0, _ => []
  | _ + 1, 0 => []
  | fuel + 1, n + 1 => (n + 1) % 36 :: base36DigitsFuel fuel ((n + 1) / 36)

/-- JS `n.toString(36)` for a natural number. -/
def natToBase36 (n : ℕ) : String :=
  if n = 0 then "0" else String.mk ((base36DigitsFuel n n).reverse.map digitChar36)

theorem base36DigitsFuel_lt : ∀ fuel n d, d ∈ base36DigitsFuel fuel n → d < 36 := by
  intro fuel
  induction fuel with
  | zero => intro n d h; simp [base36DigitsFuel] at h
  | succ f ih =>
    intro n d h
    match n with
    | 0 => simp [base36DigitsFuel] at h
    | n + 1 =>
      simp only [base36DigitsFuel, List.mem_cons] at h
      rcases h with h | h
      · omega
      · exact ih _ _ h

theorem natToBase36_chars (n : ℕ) :
    ∀ c ∈ (natToBase36 n).data, ∃ d, d < 36 ∧ c = digitChar36 d := by
  unfold natToBase36
  split
  · intro c hc
    refine ⟨0, by norm_num, ?_⟩
    simpa [digitChar36] using hc
  · intro c hc
    simp only [String.data] at hc
    obtain ⟨d, hd, rfl⟩ := List.mem_map.mp hc
    exact ⟨d, base36DigitsFuel_lt n n d (List.mem_reverse.mp hd), rfl⟩

/-! ## Percentage change: `calculateChange` and its rendering template -/

/-- A JS value that is either a number or a string — the two shapes
`calculateChange` can return. -/
inductive JsNumOrStr where
  | num (n : ℤ)
  | str (s : String)
deriving DecidableEq

/-- The helper `calculateChange(current, previous)`: the number `100` or `0` when
`previous === 0`, otherwise the string
`((current - previous) / previous * 100).toFixed(2)`. -/
def calculateChange (current previous : ℕ) : JsNumOrStr :=
  if previous = 0 then .num (if 0 < current then 100 else 0)
  else .str (toFixed2 (((current : ℚ) - (previous : ℚ)) / (previous : ℚ) * 100))

/-- The JS comparison `x >= 0` used by the template: numeric comparison for
a number, `ToNumber` coercion for a string. -/
def jsGe0 : JsNumOrStr → Bool
  | .num n => decide (0 ≤ n)
  | .str s => decide (0 ≤ parseDecimal s)

/-- String interpolation `${x}` of the template. -/
def jsToStr : JsNumOrStr → String
  | .num n => intToString n
  | .str s => s

/-- The rendered change string `` `${x >= 0 ? '+' : ''}${x}%` `` where
`x = calculateChange(current, previous)`. -/
def renderChange (current previous : ℕ) : String :=
  (if jsGe0 (calculateChange current previous) then "+" else "") ++
    jsToStr (calculateChange current previous) ++ "%"

/-- The exact rational value of `(current - previous) / previous * 100`. -/
def ratChange (current previous : ℕ) : ℚ :=
  ((current : ℚ) - (previous : ℚ)) / (previous : ℚ) * 100

theorem calculateChange_prev_pos (c p : ℕ) (hp : 0 < p) :
    calculateChange c p = .str (toFixed2 (ratChange c p)) := by
  unfold calculateChange ratChange
  rw [if_neg (by omega)]

theorem jsGe0_toFixed2 (q : ℚ) :
    jsGe0 (.str (toFixed2 q)) = decide (0 ≤ jsRound2 q) := by
  simp only [jsGe0]
  rw [parseDecimal_toFixed2]
  apply decide_eq_decide.mpr
  constructor
  · intro h
    by_contra hn
    push_neg at hn
    have hq : ((jsRound2 q : ℚ)) < 0 := by exact_mod_cast hn
    have : (jsRound2 q : ℚ) / 100 < 0 := div_neg_of_neg_of_pos hq (by norm_num)
    linarith
  · intro h
    have hq : (0 : ℚ) ≤ (jsRound2 q : ℚ) := by exact_mod_cast h
    exact div_nonneg hq (by norm_num)

/-- With a positive previous value, the rendered string is the two-decimal
rendering of the exact ratio, with `'+'` prepended exactly when the string,
read back as a number, is nonnegative — that is, when the rounded value
`jsRound2` is nonnegative. -/
theorem renderChange_prev_pos (c p : ℕ) (hp : 0 < p) :
    renderChange c p =
      (if 0 ≤ jsRound2 (ratChange c p) then "+" else "") ++
        toFixed2 (ratChange c p) ++ "%" := by
  unfold renderChange
  rw [calculateChange_prev_pos c p hp, jsGe0_toFixed2]
  simp only [jsToStr, decide_eq_true_eq]

theorem renderChange_prev_zero_pos (c : ℕ) (hc : 0 < c) :
    renderChange c 0 = "+100%" := by
  have h : calculateChange c 0 = .num 100 := by
    unfold calculateChange
    rw [if_pos rfl, if_pos hc]
  unfold renderChange
  rw [h]
  decide

/-! ## Customer documents and Mongo-collection model

`customerSchema` of `src/models/Customer.js`: the document fields, with the
storage-generated identity made explicit.  Timestamps maintained by the
storage layer and schema validation (required/maxlength/match/min) are the
storage collaborator's concern and stay outside the model; the schema's
`lowercase` transform on `email` and the unique index on `email` are
modelled because the handlers' conflict behaviour depends on them.
-/

structure Customer where
  id : ℕ
  customerName : String
  email : String
  phone : String
  ordersCount : ℕ
  orderTotal : ℚ
  customerSince : ℤ
  status : String
  abandonedCarts : ℕ
deriving DecidableEq

/-- Model of `Customer.findById`. -/
def findById (db : List Customer) (cid : ℕ) : Option Customer :=
  db.find? (fun c => c.id == cid)

/-- Persisting a loaded document (`customer.save()`): the stored document
with the same identity is replaced. -/
def saveById (db : List Customer) (doc : Customer) : List Customer :=
  db.map (fun c => if c.id == doc.id then doc else c)

/-! ## The summary endpoint (`getCustomerSummary`) -/

inductive Lookback where
  | week7
  | month1
  | year1
deriving DecidableEq

/-- The `switch (timeframe.toLowerCase())` of the summary handler. -/
def resolveLookback (tf : String) : Lookback :=
  let s := jsToLower tf
  if s = "week" then .week7
  else if s = "month" then .month1
  else if s = "year" then .year1
  else .week7

/-- The date mutation each `case` performs on a copy of `today`. -/
def applyLookback (today : ℤ) : Lookback → ℤ
  | .week7 => jsSetDate today (jsGetDate today - 7)
  | .month1 => jsSetMonth today (jsGetMonth today - 1)
  | .year1 => jsSetFullYear today (jsGetFullYear today - 1)

/-- The value `startDate` as computed from `today` and the (defaulted) timeframe. -/
def startDateOf (today : ℤ) (tf : String) : ℤ :=
  applyLookback today (resolveLookback tf)

/-- The value `periodDays = Math.floor((today - startDate) / (1000 * 60 * 60 * 24))`. -/
def periodDays (today startDate : ℤ) : ℤ := (today - startDate) / dayMs

/-- The value `previousStartDate`: a copy of `startDate` with
`setDate(getDate() - periodDays)` applied. -/
def previousStartDate (today startDate : ℤ) : ℤ :=
  jsSetDate startDate (jsGetDate startDate - periodDays today startDate)

/-- Model of `countDocuments({ status: 'active' })`. -/
def activeCustomersCount (db : List Customer) : ℕ :=
  (db.filter (fun c => c.status == "active")).length

/-- Model of `countDocuments({ status: 'inactive' })`. -/
def inactiveCustomersCount (db : List Customer) : ℕ :=
  (db.filter (fun c => c.status == "inactive")).length

/-- Model of `countDocuments({ customerSince: { $gte: startDate } })`. -/
def newCustomersCount (db : List Customer) (startDate : ℤ) : ℕ :=
  (db.filter (fun c => decide (startDate ≤ c.customerSince))).length

/-- Model of `countDocuments({ ordersCount: { $gt: 0 } })`. -/
def purchasingCustomersCount (db : List Customer) : ℕ :=
  (db.filter (fun c => decide (0 < c.ordersCount))).length

/-- The `$group`/`$sum` aggregation over `abandonedCarts`: an empty
collection produces no group at all. -/
def totalAbandonedCartsAgg (db : List Customer) : Option ℕ :=
  if db.isEmpty then none else some ((db.map (fun c => c.abandonedCarts)).sum)

/-- The fallback `totalAbandonedCarts[0]?.total || 0` (JS `||`: `0` is falsy). -/
def jsOrZero : Option ℕ → ℕ
  | none => 0
  | some n => if n = 0 then 0 else n

/-- Model of `countDocuments({ customerSince: { $lt: startDate } })`. -/
def prevAllCustomers (db : List Customer) (startDate : ℤ) : ℕ :=
  (db.filter (fun c => decide (c.customerSince < startDate))).length

/-- Model of `countDocuments({ status: 'active', customerSince: { $lt: startDate } })`. -/
def prevActiveCustomers (db : List Customer) (startDate : ℤ) : ℕ :=
  (db.filter (fun c => c.status == "active" && decide (c.customerSince < startDate))).length

/-- Model of `countDocuments({ status: 'inactive', customerSince: { $lt: startDate } })`. -/
def prevInactiveCustomers (db : List Customer) (startDate : ℤ) : ℕ :=
  (db.filter (fun c => c.status == "inactive" && decide (c.customerSince < startDate))).length

/-- Model of `countDocuments({ customerSince: { $gte: previousStartDate, $lt: startDate } })`. -/
def prevNewCustomers (db : List Customer) (startDate prevStart : ℤ) : ℕ :=
  (db.filter (fun c =>
    decide (prevStart ≤ c.customerSince) && decide (c.customerSince < startDate))).length

/-- One entry of the `metrics` object: the current value and, where
applicable, the rendered change string (JSON `null` is `none`). -/
structure Metric where
  value : ℕ
  change : Option String
deriving DecidableEq

structure SummaryMetrics where
  allCustomers : Metric
  activeCustomers : Metric
  inactiveCustomers : Metric
  newCustomers : Metric
  purchasingCustomers : Metric
  abandonedCarts : Metric
deriving DecidableEq

/-- The `data` object of the summary response. -/
structure SummaryData where
  timeframe : String
  metrics : SummaryMetrics
deriving DecidableEq

/-- The handler `getCustomerSummary`: the summary handler's response data, as a function
of the collection, the clock (`new Date()` in ms) and the raw `timeframe`
query parameter (`none` when absent; the destructuring default is
`'week'`). -/
def getCustomerSummary (db : List Customer) (today : ℤ)
    (timeframe : Option String) : SummaryData :=
  let tf := timeframe.getD "week"
  let startDate := startDateOf today tf
  let prevStart := previousStartDate today startDate
  let allC := db.length
  let activeC := activeCustomersCount db
  let inactiveC := inactiveCustomersCount db
  let newC := newCustomersCount db startDate
  let purchasingC := purchasingCustomersCount db
  let totalAbandoned := totalAbandonedCartsAgg db
  let prevAll := prevAllCustomers db startDate
  let prevActive := prevActiveCustomers db startDate
  let prevInactive := prevInactiveCustomers db startDate
  let prevNew := prevNewCustomers db startDate prevStart
  { timeframe := tf
    metrics :=
    { allCustomers := ⟨allC, some (renderChange allC prevAll)⟩
      activeCustomers := ⟨activeC, some (renderChange activeC prevActive)⟩
      inactiveCustomers := ⟨inactiveC, some (renderChange inactiveC prevInactive)⟩
      newCustomers := ⟨newC, some (renderChange newC prevNew)⟩
      purchasingCustomers := ⟨purchasingC, none⟩
      abandonedCarts := ⟨jsOrZero totalAbandoned, none⟩ } }

/-! ## CRUD handlers for customers -/

/-- A handler's outcome: a success response (HTTP status, message, returned
document) or an error response (HTTP status, message). -/
inductive HandlerResult (α : Type) where
  | ok (status : ℕ) (message : String) (data : α)
  | err (status : ℕ) (message : String)
deriving DecidableEq

/-- The request body of the create and update endpoints; `none` is an
absent field. -/
structure CustomerBody where
  customerName : Option String
  email : Option String
  phone : Option String
  ordersCount : Option ℕ
  orderTotal : Option ℚ
  customerSince : Option ℤ
  status : Option String
  abandonedCarts : Option ℕ
deriving DecidableEq

/-- JS truthiness of an optional string: `undefined` and `""` are falsy. -/
def truthyStr : Option String → Bool
  | none => false
  | some s => !(s == "")

/-- JS `x || d` on an optional string field. -/
def strOr (x : Option String) (d : String) : String :=
  match x with
  | none => d
  | some s => if s == "" then d else s

/-- JS `x || d` on an optional numeric count field (`0` is falsy). -/
def natOr (x : Option ℕ) (d : ℕ) : ℕ :=
  match x with
  | none => d
  | some n => if n == 0 then d else n

/-- JS `x || d` on an optional decimal field (`0` is falsy). -/
def ratOr (x : Option ℚ) (d : ℚ) : ℚ :=
  match x with
  | none => d
  | some v => if v == 0 then d else v

/-- JS `x || d` on an optional date field (the time value `0` is falsy). -/
def dateOr (x : Option ℤ) (d : ℤ) : ℤ :=
  match x with
  | none => d
  | some t => if t == 0 then d else t

/-- The handler `createCustomer`: validate required fields, pre-check the email for
conflicts, then `Customer.create`.  The schema lowercases the stored email,
and the unique index on `email` turns a duplicate insert into the same 400
response (the `error.code === 11000` catch). -/
def createCustomer (db : List Customer) (b : CustomerBody) (now : ℤ)
    (newId : ℕ) : HandlerResult Customer × List Customer :=
  if !(truthyStr b.customerName && truthyStr b.email && truthyStr b.phone) then
    (.err 400 "Customer name, email, and phone are required", db)
  else
    let email := b.email.getD ""
    if db.any (fun c => c.email == email) then
      (.err 400 "Customer with this email already exists", db)
    else
      let doc : Customer :=
        { id := newId
          customerName := b.customerName.getD ""
          email := jsToLower email
          phone := b.phone.getD ""
          ordersCount := natOr b.ordersCount 0
          orderTotal := ratOr b.orderTotal 0
          customerSince := dateOr b.customerSince now
          status := strOr b.status "active"
          abandonedCarts := natOr b.abandonedCarts 0 }
      if db.any (fun c => c.email == doc.email) then
        (.err 400 "Customer with this email already exists", db)
      else
        (.ok 201 "Customer created successfully" doc, db ++ [doc])

/-- The straight-line field assignments of `updateCustomer` (each field is
written if its guard holds, all fields are distinct): strings when truthy,
numeric fields when not `undefined`, the date when truthy, and the email
when truthy and different from the current one. -/
def applyUpdate (customer : Customer) (b : CustomerBody) : Customer :=
  { customer with
    email :=
      if truthyStr b.email && !(b.email.getD "" == customer.email) then b.email.getD ""
      else customer.email
    customerName :=
      if truthyStr b.customerName then b.customerName.getD "" else customer.customerName
    phone := if truthyStr b.phone then b.phone.getD "" else customer.phone
    ordersCount :=
      match b.ordersCount with
      | some v => v
      | none => customer.ordersCount
    orderTotal :=
      match b.orderTotal with
      | some v => v
      | none => customer.orderTotal
    customerSince :=
      match b.customerSince with
      | some v => if v == 0 then customer.customerSince else v
      | none => customer.customerSince
    status := if truthyStr b.status then b.status.getD "" else customer.status
    abandonedCarts :=
      match b.abandonedCarts with
      | some v => v
      | none => customer.abandonedCarts }

/-- The handler `updateCustomer`: load by id, pre-check a changed email against the
whole collection, apply the present fields and save.  The save applies the
schema's lowercase transform to the email, and the unique index turns a
remaining duplicate into the `error.code === 11000` catch's 400. -/
def updateCustomer (db : List Customer) (cid : ℕ) (b : CustomerBody) :
    HandlerResult Customer × List Customer :=
  match findById db cid with
  | none => (.err 404 "Customer not found", db)
  | some customer =>
    if truthyStr b.email && !(b.email.getD "" == customer.email) &&
        db.any (fun c => c.email == b.email.getD "") then
      (.err 400 "Another customer with this email already exists", db)
    else
      let u := applyUpdate customer b
      let final : Customer := { u with email := jsToLower u.email }
      if db.any (fun c => !(c.id == cid) && c.email == final.email) then
        (.err 400 "Email already exists", db)
      else
        (.ok 200 "Customer updated successfully" final, saveById db final)

/-- The handler `updateCustomerStatus`: validate the status value, load by id, set only
`status` and save. -/
def updateCustomerStatus (db : List Customer) (cid : ℕ) (status : Option String) :
    HandlerResult Customer × List Customer :=
  if !(truthyStr status) || !(status.getD "" == "active" || status.getD "" == "inactive") then
    (.err 400 "Valid status (active or inactive) is required", db)
  else
    match findById db cid with
    | none => (.err 404 "Customer not found", db)
    | some customer =>
      let updated : Customer := { customer with status := status.getD "" }
      (.ok 200 "Customer status updated successfully" updated, saveById db updated)

/-! ## Order documents and tracking-id generation -/

/-- The optional shipping address subdocument of `orderSchema`. -/
structure ShippingAddress where
  street : Option String
  city : Option String
  state : Option String
  zipCode : Option String
  country : Option String
deriving DecidableEq

/-- The schema `orderSchema` of the order model file, with the storage identity made
explicit.  `trackingId` is `""` while unset (JS `undefined` is falsy, as is
`""`). -/
structure OrderDoc where
  id : ℕ
  customerName : String
  orderDate : ℤ
  orderType : String
  trackingId : String
  orderTotal : ℚ
  action : String
  status : String
  description : Option String
  customerEmail : Option String
  customerPhone : Option String
  shippingAddress : Option ShippingAddress
deriving DecidableEq

/-- Model of `Math.random().toString(36).substr(2, 5)`: up to five base-36 digits of
the random fraction's expansion. -/
def randomSuffix (rnd : List (Fin 36)) : String :=
  String.mk ((rnd.take 5).map (fun d => digitChar36 d.val))

/-- The tracking id built by the pre-save hook:
`` `ORD-${timestamp}-${random}`.toUpperCase() `` with `timestamp` the clock
in base 36. -/
def genTrackingId (nowMs : ℕ) (rnd : List (Fin 36)) : String :=
  jsToUpper ("ORD-" ++ natToBase36 nowMs ++ "-" ++ randomSuffix rnd)

/-- The `orderSchema.pre('save')` hook: generate a tracking id when none is
set. -/
def preSaveOrder (o : OrderDoc) (nowMs : ℕ) (rnd : List (Fin 36)) : OrderDoc :=
  if o.trackingId == "" then { o with trackingId := genTrackingId nowMs rnd } else o

/-- Saving an order document: the schema's `uppercase` setter has been
applied to any explicitly set tracking id, the pre-save hook runs, and the
unique index on `trackingId` rejects duplicates (`E11000`). -/
def saveOrder (db : List OrderDoc) (o : OrderDoc) (nowMs : ℕ) (rnd : List (Fin 36)) :
    Except String (OrderDoc × List OrderDoc) :=
  let o1 := { o with trackingId := jsToUpper o.trackingId }
  let o2 := preSaveOrder o1 nowMs rnd
  if db.any (fun x => x.trackingId == o2.trackingId) then
    .error "E11000 duplicate key error"
  else
    .ok (o2, db ++ [o2])

/-! ## Evaluation helpers for concrete change values -/

theorem jsRound2_eval_nonneg (q : ℚ) (n : ℤ) (d : ℕ) (hq : ¬q < 0)
    (h : q * 100 + 1 / 2 = (n : ℚ) / (d : ℚ)) : jsRound2 q = n / (d : ℤ) := by
  unfold jsRound2
  rw [if_neg hq, h, Rat.floor_intCast_div_natCast]

theorem jsRound2_eval_neg (q : ℚ) (n : ℤ) (d : ℕ) (hq : q < 0)
    (h : -q * 100 + 1 / 2 = (n : ℚ) / (d : ℚ)) : jsRound2 q = -(n / (d : ℤ)) := by
  unfold jsRound2
  rw [if_pos hq, h, Rat.floor_intCast_div_natCast]

theorem toFixed2_eval_neg (q : ℚ) (hq : q < 0) (n : ℤ) (hr : jsRound2 q = n) :
    toFixed2 q =
      "-" ++ natToString (n.natAbs / 100) ++ "." ++ twoDigitString (n.natAbs % 100) := by
  unfold toFixed2
  rw [hr, if_pos hq]

theorem toFixed2_eval_nonneg (q : ℚ) (hq : ¬q < 0) (n : ℤ) (hr : jsRound2 q = n) :
    toFixed2 q =
      "" ++ natToString (n.natAbs / 100) ++ "." ++ twoDigitString (n.natAbs % 100) := by
  unfold toFixed2
  rw [hr, if_neg hq]

theorem renderChange_eval (c p : ℕ) (hp : 0 < p) (n : ℤ)
    (hr : jsRound2 (ratChange c p) = n) (s : String)
    (hts : toFixed2 (ratChange c p) = s) :
    renderChange c p = (if 0 ≤ n then "+" else "") ++ s ++ "%" := by
  rw [renderChange_prev_pos c p hp, hr, hts]

theorem ratChange_sub_div (c p : ℕ) : ratChange c p = ((c : ℚ) - p) / p * 100 := rfl

/-! ## Claim theorems -/

/-- The percentage-change rendering rule as the specification words it
(modelled from the spec, for comparison with the code's `renderChange`):
the exact percentage with two-decimal precision, a leading `+` exactly when
the value is non-negative; `"+100%"` when `previous = 0 < current` and
`"0%"` when both are zero. -/
def specRenderChange (current previous : ℕ) : String :=
  if previous = 0 then (if 0 < current then "+100%" else "0%")
  else
    (if 0 ≤ ratChange current previous then "+" else "") ++
      toFixed2 (ratChange current previous) ++ "%"

/-- C1 (counterexample): with current = 0 and previous = 0 — as in every
metric of a summary over an empty collection — the rendered change string
is "+0%", not "0%" as the claim states: `calculateChange` returns the
number 0, which passes the template's `>= 0` test and gets the '+'. -/
theorem claim_C1_counterexample :
    (getCustomerSummary [] 0 none).metrics.allCustomers.change = some "+0%" ∧
    ¬((getCustomerSummary [] 0 none).metrics.allCustomers.change = some "0%") := by
  constructor
  · rfl
  · decide

/-- C1 (amended): for the (current, previous) = (0, 0) pair, the rendered
change string in the summary response is exactly "+0%" (the numeric 0
satisfies the template's `>= 0` test, so a '+' is prefixed). -/
theorem claim_C1_amended (today : ℤ) (timeframe : Option String) :
    (getCustomerSummary [] today timeframe).metrics.allCustomers.change = some "+0%" ∧
    renderChange 0 0 = "+0%" := by
  have h : renderChange 0 0 = "+0%" := by decide
  exact ⟨by rw [show (getCustomerSummary [] today timeframe).metrics.allCustomers.change =
    some (renderChange 0 0) from rfl, h], h⟩

/-- C2 (counterexample): for previous = 30000, current = 29999 the exact
change is -1/300 %, which `toFixed(2)` renders as "-0.00"; the string
"-0.00" coerces to -0, which satisfies `>= 0`, so the code renders
"+-0.00%", while the claim's rule (leading '+' only when the value is
non-negative) gives "-0.00%". -/
theorem claim_C2_counterexample :
    renderChange 29999 30000 = "+-0.00%" ∧
    specRenderChange 29999 30000 = "-0.00%" ∧
    renderChange 29999 30000 ≠ specRenderChange 29999 30000 := by
  have hv : ratChange 29999 30000 = -1 / 300 := by
    unfold ratChange
    norm_num
  have hneg : ratChange 29999 30000 < 0 := by rw [hv]; norm_num
  have hr : jsRound2 (ratChange 29999 30000) = 0 := by
    have h := jsRound2_eval_neg (ratChange 29999 30000) 5 6 hneg (by rw [hv]; norm_num)
    rw [h]
    decide
  have hts : toFixed2 (ratChange 29999 30000) = "-0.00" := by
    rw [toFixed2_eval_neg _ hneg 0 hr]
    decide
  have hrc : renderChange 29999 30000 = "+-0.00%" := by
    rw [renderChange_eval 29999 30000 (by norm_num) 0 hr "-0.00" hts]
    decide
  have hsp : specRenderChange 29999 30000 = "-0.00%" := by
    unfold specRenderChange
    rw [if_neg (by norm_num), if_neg (not_le.mpr hneg), hts]
    decide
  refine ⟨hrc, hsp, ?_⟩
  rw [hrc, hsp]
  decide

/-- C2 (amended): for previous > 0 the rendered string is the two-decimal
`toFixed` rendering of (current − previous)/previous × 100, with a leading
'+' exactly when the value rounded to two decimals (the string read back as
a number) is ≥ 0 — so "-0.00" also receives the '+'; previous = 50,
current = 75 gives "+50.00%", previous = 80, current = 40 gives "-50.00%";
and previous = 0 < current renders "+100%". -/
theorem claim_C2_amended :
    (∀ current previous : ℕ, 0 < previous →
      renderChange current previous =
        (if 0 ≤ jsRound2 (ratChange current previous) then "+" else "") ++
          toFixed2 (ratChange current previous) ++ "%") ∧
    renderChange 75 50 = "+50.00%" ∧
    renderChange 40 80 = "-50.00%" ∧
    (∀ current : ℕ, 0 < current → renderChange current 0 = "+100%") := by
  refine ⟨renderChange_prev_pos, ?_, ?_, renderChange_prev_zero_pos⟩
  · have hv : ratChange 75 50 = 50 := by
      unfold ratChange
      norm_num
    have hge : ¬ratChange 75 50 < 0 := by rw [hv]; norm_num
    have hr : jsRound2 (ratChange 75 50) = 5000 := by
      have h := jsRound2_eval_nonneg (ratChange 75 50) 10001 2 hge (by rw [hv]; norm_num)
      rw [h]
      decide
    have hts : toFixed2 (ratChange 75 50) = "50.00" := by
      rw [toFixed2_eval_nonneg _ hge 5000 hr]
      decide
    rw [renderChange_eval 75 50 (by norm_num) 5000 hr "50.00" hts]
    decide
  · have hv : ratChange 40 80 = -50 := by
      unfold ratChange
      norm_num
    have hneg : ratChange 40 80 < 0 := by rw [hv]; norm_num
    have hr : jsRound2 (ratChange 40 80) = -5000 := by
      have h := jsRound2_eval_neg (ratChange 40 80) 10001 2 hneg (by rw [hv]; norm_num)
      rw [h]
      decide
    have hts : toFixed2 (ratChange 40 80) = "-50.00" := by
      rw [toFixed2_eval_neg _ hneg (-5000) hr]
      decide
    rw [renderChange_eval 40 80 (by norm_num) (-5000) hr "-50.00" hts]
    decide

/-- C2 (witness): the amended statement applied at concrete inputs,
discharging its hypotheses there. -/
theorem claim_C2_witness :
    renderChange 75 50 =
      (if 0 ≤ jsRound2 (ratChange 75 50) then "+" else "") ++
        toFixed2 (ratChange 75 50) ++ "%" ∧
    renderChange 3 0 = "+100%" :=
  ⟨claim_C2_amended.1 75 50 (by decide), claim_C2_amended.2.2.2 3 (by decide)⟩

/-- C3: for every clock value and timeframe, the previous-period start the
summary computes via `setDate(getDate() - periodDays)` equals
`periodStart - periodDays` days (with `periodDays = ⌊(now - periodStart) /
1 day⌋`), and the `newCustomers` change compares against the count of
customers whose `customerSince` lies in `[previousStart, periodStart)`. -/
theorem claim_C3_previous_period (db : List Customer) (today : ℤ)
    (timeframe : Option String) :
    previousStartDate today (startDateOf today (timeframe.getD "week")) =
      startDateOf today (timeframe.getD "week") -
        periodDays today (startDateOf today (timeframe.getD "week")) * dayMs ∧
    (getCustomerSummary db today timeframe).metrics.newCustomers.change =
      some (renderChange
        (newCustomersCount db (startDateOf today (timeframe.getD "week")))
        ((db.filter (fun c =>
          decide (previousStartDate today (startDateOf today (timeframe.getD "week")) ≤
            c.customerSince) &&
          decide (c.customerSince <
            startDateOf today (timeframe.getD "week")))).length)) :=
  ⟨jsSetDate_sub _ _, rfl⟩

/-- C4 (counterexample): the timeframe value "MONTH" is none of the strings
'week', 'month', 'year', yet the summary does not fall back to the 7-day
week lookback for it — the switch lowercases the value first and resolves a
calendar month. -/
theorem claim_C4_counterexample :
    startDateOf 0 "MONTH" ≠ 0 - 7 * dayMs ∧
    "MONTH" ≠ "week" ∧ "MONTH" ≠ "month" ∧ "MONTH" ≠ "year" := by
  refine ⟨by decide, by decide, by decide, by decide⟩

/-- C4 (amended): timeframes are matched case-insensitively (the value is
lowercased first): 'week' resolves to a 7-day lookback, 'month' to one
calendar month, 'year' to one calendar year, and every value whose
lowercase form is none of these — including an absent parameter — uses the
7-day week lookback. -/
theorem claim_C4_amended (today : ℤ) :
    (∀ tf : Option String,
      jsToLower (tf.getD "week") ≠ "month" → jsToLower (tf.getD "week") ≠ "year" →
      startDateOf today (tf.getD "week") = today - 7 * dayMs) ∧
    resolveLookback "month" = .month1 ∧
    resolveLookback "year" = .year1 ∧
    resolveLookback "MONTH" = .month1 ∧
    resolveLookback "week" = .week7 := by
  refine ⟨?_, by decide, by decide, by decide, by decide⟩
  intro tf h1 h2
  unfold startDateOf resolveLookback
  dsimp only
  by_cases hw : jsToLower (tf.getD "week") = "week"
  · rw [if_pos hw]
    exact jsSetDate_sub today 7
  · rw [if_neg hw, if_neg h1, if_neg h2]
    exact jsSetDate_sub today 7

/-- C4 (witness): the amended statement applied at a concrete unrecognized
timeframe. -/
theorem claim_C4_witness :
    startDateOf 5 ((some "banana").getD "week") = 5 - 7 * dayMs :=
  (claim_C4_amended 5).1 (some "banana") (by decide) (by decide)

/-- C5: the `abandonedCarts` metric value is the sum of `abandonedCarts`
over the whole collection (0 when it is empty), and neither
`purchasingCustomers` nor `abandonedCarts` carries a change value. -/
theorem claim_C5_abandoned_carts (db : List Customer) (today : ℤ)
    (timeframe : Option String) :
    (getCustomerSummary db today timeframe).metrics.abandonedCarts.value =
      (db.map (fun c => c.abandonedCarts)).sum ∧
    (getCustomerSummary db today timeframe).metrics.abandonedCarts.change = none ∧
    (getCustomerSummary db today timeframe).metrics.purchasingCustomers.change = none := by
  refine ⟨?_, rfl, rfl⟩
  show jsOrZero (totalAbandonedCartsAgg db) = (db.map (fun c => c.abandonedCarts)).sum
  unfold totalAbandonedCartsAgg
  cases db with
  | nil => rfl
  | cons c rest =>
    rw [if_neg (by simp)]
    simp only [jsOrZero]
    split
    · omega
    · rfl

/-- A one-customer collection used by the concrete witnesses. -/
def annDoc : Customer :=
  { id := 1, customerName := "Ann", email := "ann@shop.io", phone := "123"
    ordersCount := 0, orderTotal := 0, customerSince := 5, status := "active"
    abandonedCarts := 0 }

def annDb : List Customer := [annDoc]

/-- C6: creating a customer whose (non-empty) email equals the email of a
customer already in the collection fails with the 400 conflict response and
leaves the collection unchanged (for a request that passes the
required-fields check). -/
theorem claim_C6_duplicate_email (db : List Customer) (b : CustomerBody) (now : ℤ)
    (newId : ℕ) (e : String) (c : Customer)
    (hname : truthyStr b.customerName = true) (hphone : truthyStr b.phone = true)
    (hemail : b.email = some e) (hne : e ≠ "")
    (hc : c ∈ db) (hce : c.email = e) :
    createCustomer db b now newId =
      (.err 400 "Customer with this email already exists", db) := by
  have htre : truthyStr b.email = true := by
    rw [hemail]
    simp [truthyStr, hne]
  unfold createCustomer
  rw [if_neg (by simp [hname, hphone, htre])]
  rw [hemail]
  simp only [Option.getD_some]
  rw [if_pos (List.any_eq_true.mpr ⟨c, hc, by simp [hce]⟩)]

/-- C6 (witness): the theorem applied to a concrete duplicate-email
request. -/
theorem claim_C6_witness :
    createCustomer annDb
      { customerName := some "Bob", email := some "ann@shop.io", phone := some "99"
        ordersCount := none, orderTotal := none, customerSince := none
        status := none, abandonedCarts := none } 0 2 =
      (.err 400 "Customer with this email already exists", annDb) :=
  claim_C6_duplicate_email annDb _ 0 2 "ann@shop.io" annDoc
    (by decide) (by decide) rfl (by decide) (by decide) rfl

/-- C8: a status-patch with any value other than 'active'/'inactive'
(including an absent one) is rejected with 400 and the collection is
untouched; a valid value updates exactly the `status` field of the found
record, leaving every other field unchanged. -/
theorem claim_C8_status_patch (db : List Customer) (cid : ℕ) (s : Option String) :
    ((∀ v, s = some v → v ≠ "active" ∧ v ≠ "inactive") →
      updateCustomerStatus db cid s =
        (.err 400 "Valid status (active or inactive) is required", db)) ∧
    (∀ v c, s = some v → v = "active" ∨ v = "inactive" → findById db cid = some c →
      updateCustomerStatus db cid s =
        (.ok 200 "Customer status updated successfully" { c with status := v },
          saveById db { c with status := v })) := by
  constructor
  · intro h
    cases s with
    | none => rfl
    | some v =>
      obtain ⟨h1, h2⟩ := h v rfl
      have e1 : (v == "active") = false := beq_eq_false_iff_ne.mpr h1
      have e2 : (v == "inactive") = false := beq_eq_false_iff_ne.mpr h2
      unfold updateCustomerStatus
      rw [if_pos (by simp [truthyStr, e1, e2])]
  · intro v c hs hv hfind
    subst hs
    rcases hv with rfl | rfl <;>
      (unfold updateCustomerStatus
       rw [if_neg (by decide), hfind]
       rfl)

/-- C8 (witness): the theorem applied to a concrete invalid patch
("archived") and a concrete valid patch ("inactive"). -/
theorem claim_C8_witness :
    updateCustomerStatus annDb 1 (some "archived") =
      (.err 400 "Valid status (active or inactive) is required", annDb) ∧
    updateCustomerStatus annDb 1 (some "inactive") =
      (.ok 200 "Customer status updated successfully" { annDoc with status := "inactive" },
        saveById annDb { annDoc with status := "inactive" }) :=
  ⟨(claim_C8_status_patch annDb 1 (some "archived")).1
      (by
        intro v hv
        simp only [Option.some.injEq] at hv
        subst hv
        exact ⟨by decide, by decide⟩),
    (claim_C8_status_patch annDb 1 (some "inactive")).2 "inactive" annDoc rfl
      (Or.inr rfl) (by decide)⟩

theorem status_partition (db : List Customer) (q : Customer → Bool)
    (h : ∀ c ∈ db, c.status = "active" ∨ c.status = "inactive") :
    (db.filter q).length =
      (db.filter (fun c => c.status == "active" && q c)).length +
      (db.filter (fun c => c.status == "inactive" && q c)).length := by
  induction db with
  | nil => rfl
  | cons c rest ih =>
    have hrest : ∀ x ∈ rest, x.status = "active" ∨ x.status = "inactive" :=
      fun x hx => h x (List.mem_cons_of_mem _ hx)
    have hi := ih hrest
    have e1 : (("active" : String) == "inactive") = false := by decide
    have e2 : (("inactive" : String) == "active") = false := by decide
    rcases h c (List.mem_cons_self c rest) with hc | hc <;>
      by_cases hq : q c = true <;>
        simp [List.filter_cons, hc, hq, hi, e1, e2] <;> omega

/-- C10: when every stored status is one of the two schema-allowed values,
allCustomers = activeCustomers + inactiveCustomers in the summary response,
and likewise prevAllCustomers = prevActiveCustomers + prevInactiveCustomers
for the prior-period counts. -/
theorem claim_C10_partition (db : List Customer) (today : ℤ) (timeframe : Option String)
    (h : ∀ c ∈ db, c.status = "active" ∨ c.status = "inactive") :
    (getCustomerSummary db today timeframe).metrics.allCustomers.value =
      (getCustomerSummary db today timeframe).metrics.activeCustomers.value +
      (getCustomerSummary db today timeframe).metrics.inactiveCustomers.value ∧
    prevAllCustomers db (startDateOf today (timeframe.getD "week")) =
      prevActiveCustomers db (startDateOf today (timeframe.getD "week")) +
      prevInactiveCustomers db (startDateOf today (timeframe.getD "week")) := by
  constructor
  · show db.length =
      activeCustomersCount db + inactiveCustomersCount db
    have hp := status_partition db (fun _ => true) h
    simpa [activeCustomersCount, inactiveCustomersCount] using hp
  · exact status_partition db
      (fun c => decide (c.customerSince < startDateOf today (timeframe.getD "week"))) h

/-- C10 (witness): the theorem applied to a concrete single-customer
collection. -/
theorem claim_C10_witness :
    (getCustomerSummary annDb 0 none).metrics.allCustomers.value =
      (getCustomerSummary annDb 0 none).metrics.activeCustomers.value +
      (getCustomerSummary annDb 0 none).metrics.inactiveCustomers.value ∧
    prevAllCustomers annDb (startDateOf 0 ((none : Option String).getD "week")) =
      prevActiveCustomers annDb (startDateOf 0 ((none : Option String).getD "week")) +
      prevInactiveCustomers annDb (startDateOf 0 ((none : Option String).getD "week")) :=
  claim_C10_partition annDb 0 none (by decide)

/-! ## Field-level behaviour of `applyUpdate` -/

theorem applyUpdate_customerName (c : Customer) (b : CustomerBody) :
    (applyUpdate c b).customerName =
      (match b.customerName with
        | some v => if v = "" then c.customerName else v
        | none => c.customerName) := by
  cases hb : b.customerName with
  | none => simp [applyUpdate, truthyStr, hb]
  | some v =>
    by_cases hv : v = ""
    · subst hv
      simp [applyUpdate, truthyStr, hb]
    · simp [applyUpdate, truthyStr, hb, beq_eq_false_iff_ne.mpr hv, hv]

theorem applyUpdate_phone (c : Customer) (b : CustomerBody) :
    (applyUpdate c b).phone =
      (match b.phone with
        | some v => if v = "" then c.phone else v
        | none => c.phone) := by
  cases hb : b.phone with
  | none => simp [applyUpdate, truthyStr, hb]
  | some v =>
    by_cases hv : v = ""
    · subst hv
      simp [applyUpdate, truthyStr, hb]
    · simp [applyUpdate, truthyStr, hb, beq_eq_false_iff_ne.mpr hv, hv]

theorem applyUpdate_status (c : Customer) (b : CustomerBody) :
    (applyUpdate c b).status =
      (match b.status with
        | some v => if v = "" then c.status else v
        | none => c.status) := by
  cases hb : b.status with
  | none => simp [applyUpdate, truthyStr, hb]
  | some v =>
    by_cases hv : v = ""
    · subst hv
      simp [applyUpdate, truthyStr, hb]
    · simp [applyUpdate, truthyStr, hb, beq_eq_false_iff_ne.mpr hv, hv]

theorem applyUpdate_email (c : Customer) (b : CustomerBody) :
    (applyUpdate c b).email =
      (match b.email with
        | some v => if v = "" ∨ v = c.email then c.email else v
        | none => c.email) := by
  cases hb : b.email with
  | none => simp [applyUpdate, truthyStr, hb]
  | some v =>
    by_cases hv : v = ""
    · subst hv
      simp [applyUpdate, truthyStr, hb]
    · by_cases hve : v = c.email
      · simp [applyUpdate, truthyStr, hb, hve]
      · simp [applyUpdate, truthyStr, hb, beq_eq_false_iff_ne.mpr hv, hv,
          beq_eq_false_iff_ne.mpr hve, hve]

theorem applyUpdate_ordersCount (c : Customer) (b : CustomerBody) :
    (applyUpdate c b).ordersCount = b.ordersCount.getD c.ordersCount := by
  cases hb : b.ordersCount <;> simp [applyUpdate, hb]

theorem applyUpdate_orderTotal (c : Customer) (b : CustomerBody) :
    (applyUpdate c b).orderTotal = b.orderTotal.getD c.orderTotal := by
  cases hb : b.orderTotal <;> simp [applyUpdate, hb]

theorem applyUpdate_abandonedCarts (c : Customer) (b : CustomerBody) :
    (applyUpdate c b).abandonedCarts = b.abandonedCarts.getD c.abandonedCarts := by
  cases hb : b.abandonedCarts <;> simp [applyUpdate, hb]

theorem applyUpdate_customerSince (c : Customer) (b : CustomerBody) :
    (applyUpdate c b).customerSince =
      (match b.customerSince with
        | some v => if v = 0 then c.customerSince else v
        | none => c.customerSince) := by
  cases hb : b.customerSince with
  | none => simp [applyUpdate, hb]
  | some v =>
    by_cases hv : v = 0
    · subst hv
      simp [applyUpdate, hb]
    · simp [applyUpdate, hb, beq_eq_false_iff_ne.mpr hv, hv]

theorem applyUpdate_id (c : Customer) (b : CustomerBody) :
    (applyUpdate c b).id = c.id := rfl

/-- The update body that exhibits the C7 counterexample: `customerName` is
present in the request, with the empty string as value. -/
def c7Body : CustomerBody :=
  { customerName := some "", email := none, phone := none, ordersCount := none
    orderTotal := none, customerSince := none, status := none, abandonedCarts := none }

/-- C7 (counterexample): a PUT whose body contains `customerName` (with
value `""`) succeeds but does not apply that present field — the record
keeps its old name "Ann" — so "exactly the fields present in the request
body are applied" is false. -/
theorem claim_C7_counterexample :
    (updateCustomer annDb 1 c7Body).1 =
      .ok 200 "Customer updated successfully" annDoc ∧
    (updateCustomer annDb 1 c7Body).2 = annDb ∧
    c7Body.customerName = some "" ∧
    annDoc.customerName ≠ "" := by decide

/-- C7 (amended): on an existing record, a changed (truthy) email that
another record already holds fails with the 400 conflict and leaves the
collection unchanged; otherwise the update succeeds and applies exactly the
present fields with truthy values — string fields only when non-empty, the
email only when non-empty and different from the current one (then
lowercased on save), the date only when nonzero, and the numeric fields
whenever present — while every absent or falsy field keeps its previous
value. -/
theorem claim_C7_amended (db : List Customer) (cid : ℕ) (b : CustomerBody) (c : Customer)
    (hfind : findById db cid = some c) :
    ((truthyStr b.email = true ∧ ¬b.email.getD "" = c.email ∧
        (∃ c2 ∈ db, c2.email = b.email.getD "")) →
      updateCustomer db cid b =
        (.err 400 "Another customer with this email already exists", db)) ∧
    (∀ r rest, updateCustomer db cid b = (.ok 200 "Customer updated successfully" r, rest) →
      rest = saveById db r ∧
      r.id = c.id ∧
      r.customerName = (match b.customerName with
        | some v => if v = "" then c.customerName else v
        | none => c.customerName) ∧
      r.phone = (match b.phone with
        | some v => if v = "" then c.phone else v
        | none => c.phone) ∧
      r.email = jsToLower (match b.email with
        | some v => if v = "" ∨ v = c.email then c.email else v
        | none => c.email) ∧
      r.ordersCount = b.ordersCount.getD c.ordersCount ∧
      r.orderTotal = b.orderTotal.getD c.orderTotal ∧
      r.customerSince = (match b.customerSince with
        | some v => if v = 0 then c.customerSince else v
        | none => c.customerSince) ∧
      r.status = (match b.status with
        | some v => if v = "" then c.status else v
        | none => c.status) ∧
      r.abandonedCarts = b.abandonedCarts.getD c.abandonedCarts) := by
  constructor
  · rintro ⟨ht, hne, c2, hc2, hc2e⟩
    have h2 : (b.email.getD "" == c.email) = false := beq_eq_false_iff_ne.mpr hne
    have h3 : db.any (fun x => x.email == b.email.getD "") = true :=
      List.any_eq_true.mpr ⟨c2, hc2, by simp [hc2e]⟩
    unfold updateCustomer
    rw [hfind]
    dsimp only
    rw [show (truthyStr b.email && !(b.email.getD "" == c.email) &&
        db.any (fun x => x.email == b.email.getD "")) = true by
      rw [ht, h2, h3]
      rfl]
    rfl
  · intro r rest heq
    unfold updateCustomer at heq
    rw [hfind] at heq
    dsimp only at heq
    by_cases hconf : (truthyStr b.email && !(b.email.getD "" == c.email) &&
        db.any (fun x => x.email == b.email.getD "")) = true
    · rw [if_pos hconf] at heq
      exact absurd heq (by simp)
    · rw [if_neg hconf] at heq
      by_cases hdup : (db.any (fun x => !(x.id == cid) &&
          x.email == jsToLower (applyUpdate c b).email)) = true
      · rw [if_pos hdup] at heq
        exact absurd heq (by simp)
      · rw [if_neg hdup] at heq
        injection heq with h1 h2
        injection h1 with _ _ h3
        subst h3
        subst h2
        refine ⟨rfl, applyUpdate_id c b, applyUpdate_customerName c b,
          applyUpdate_phone c b, congrArg jsToLower (applyUpdate_email c b),
          applyUpdate_ordersCount c b, applyUpdate_orderTotal c b,
          applyUpdate_customerSince c b, applyUpdate_status c b,
          applyUpdate_abandonedCarts c b⟩

/-- A second customer, used to exercise the update conflict path. -/
def bobDoc : Customer :=
  { id := 2, customerName := "Bob", email := "bob@shop.io", phone := "456"
    ordersCount := 1, orderTotal := 10, customerSince := 9, status := "inactive"
    abandonedCarts := 2 }

def annBobDb : List Customer := [annDoc, bobDoc]

/-- C7 (witness): the amended theorem applied to a concrete conflicting
email change. -/
theorem claim_C7_witness :
    updateCustomer annBobDb 1
      { customerName := none, email := some "bob@shop.io", phone := none
        ordersCount := none, orderTotal := none, customerSince := none
        status := none, abandonedCarts := none } =
      (.err 400 "Another customer with this email already exists", annBobDb) :=
  (claim_C7_amended annBobDb 1 _ annDoc (by decide)).1
    ⟨by decide, by decide, bobDoc, by decide, rfl⟩

/-- The generated tracking id starts with the four characters `ORD-`. -/
theorem genTrackingId_data (nowMs : ℕ) (rnd : List (Fin 36)) :
    (genTrackingId nowMs rnd).data =
      'O' :: 'R' :: 'D' :: '-' ::
        ((natToBase36 nowMs ++ "-" ++ randomSuffix rnd).data.map Char.toUpper) := rfl

/-- C9: an order saved without an explicit trackingId gets the generated
id (base-36 timestamp plus random suffix, `ORD-`-prefixed, uppercased);
once stored, it is the only document in the collection with that id. -/
theorem claim_C9_tracking_id (db : List OrderDoc) (o : OrderDoc) (nowMs : ℕ)
    (rnd : List (Fin 36)) (saved : OrderDoc) (rest : List OrderDoc)
    (habsent : o.trackingId = "")
    (hsave : saveOrder db o nowMs rnd = .ok (saved, rest)) :
    saved.trackingId = genTrackingId nowMs rnd ∧
    (∃ tail, saved.trackingId.data = 'O' :: 'R' :: 'D' :: '-' :: tail) ∧
    jsToUpper saved.trackingId = saved.trackingId ∧
    (rest.filter (fun x => x.trackingId == saved.trackingId)).length = 1 := by
  have hpre : preSaveOrder { o with trackingId := jsToUpper o.trackingId } nowMs rnd =
      { o with trackingId := genTrackingId nowMs rnd } := by
    rw [habsent]
    rfl
  unfold saveOrder at hsave
  dsimp only at hsave
  rw [hpre] at hsave
  dsimp only at hsave
  by_cases hdup : (db.any (fun x => x.trackingId == genTrackingId nowMs rnd)) = true
  · rw [if_pos hdup] at hsave
    exact absurd hsave (by simp)
  · rw [if_neg hdup] at hsave
    injection hsave with h1
    injection h1 with h2 h3
    subst h2
    subst h3
    refine ⟨rfl,
      ⟨(natToBase36 nowMs ++ "-" ++ randomSuffix rnd).data.map Char.toUpper, rfl⟩,
      jsToUpper_jsToUpper _, ?_⟩
    rw [List.filter_append]
    have hdb : db.filter
        (fun x => x.trackingId ==
          ({ o with trackingId := genTrackingId nowMs rnd} : OrderDoc).trackingId) = [] := by
      rw [List.filter_eq_nil_iff]
      intro x hx hbeq
      exact absurd (List.any_eq_true.mpr ⟨x, hx, hbeq⟩) hdup
    rw [hdb]
    simp

/-- A minimal order without an explicit tracking id, and a sample random
draw, for the C9 witness. -/
def c9Order : OrderDoc :=
  { id := 1, customerName := "Jane", orderDate := 0, orderType := "online"
    trackingId := "", orderTotal := 250, action := "pending", status := "active"
    description := none, customerEmail := none, customerPhone := none
    shippingAddress := none }

def c9Rnd : List (Fin 36) := [10, 0, 35]

def c9Saved : OrderDoc := { c9Order with trackingId := genTrackingId 7 c9Rnd }

/-- C9 (witness): the theorem applied to a concrete save of an order with
no tracking id into an empty collection. -/
theorem claim_C9_witness :
    c9Saved.trackingId = genTrackingId 7 c9Rnd ∧
    (∃ tail, c9Saved.trackingId.data = 'O' :: 'R' :: 'D' :: '-' :: tail) ∧
    jsToUpper c9Saved.trackingId = c9Saved.trackingId ∧
    (([c9Saved] : List OrderDoc).filter
      (fun x => x.trackingId == c9Saved.trackingId)).length = 1 :=
  claim_C9_tracking_id [] c9Order 7 c9Rnd c9Saved [c9Saved] rfl rfl
